import Mathlib

/-!
Verification of the identity-verification workflow engine
(`orchestrator`): a shallow embedding of the state machine
(`state_machine.py`), the email/OTP validators
(`validators/email_validator.py`, `validators/otp_validator.py`) and the
tool registry (`tools/registry.py`), followed by theorems about the
embedded code.

External collaborators (Firestore, the LLM, SendGrid, the phone-number
library, SHA-256, the secret store, wall-clock time) are modelled as
explicit oracle parameters collected in an `Env` structure; everything
the repository itself computes is translated directly from the Python
source.  `datetime` values are modelled as integers (seconds); Python
exceptions are modelled with `Except String`.
-/

namespace MLG

/-! ## Python string helpers

Character predicates are stated on `Char.toNat` code points.  The regex
classes of the source (`[a-zA-Z]`, `[0-9]`, …) are exactly these ASCII
sets; `str.lower()`/`str.strip()`/`str.isdigit()` are modelled by their
ASCII behavior, which is all the workflow's data exercises. -/

/-- `[A-Z]`. -/
def isUpperB (c : Char) : Bool :=
  decide (65 ≤ c.toNat ∧ c.toNat ≤ 90)

/-- `[a-zA-Z]`. -/
def isAlphaB (c : Char) : Bool :=
  decide ((65 ≤ c.toNat ∧ c.toNat ≤ 90) ∨ (97 ≤ c.toNat ∧ c.toNat ≤ 122))

/-- `[0-9]`. -/
def isDigitB (c : Char) : Bool :=
  decide (48 ≤ c.toNat ∧ c.toNat ≤ 57)

/-- `[a-zA-Z0-9]`. -/
def isAlphanumB (c : Char) : Bool :=
  isAlphaB c || isDigitB c

/-- Whitespace as stripped by `str.strip()` (space, `\t\n\v\f\r`). -/
def isSpaceB (c : Char) : Bool :=
  decide (c.toNat = 32 ∨ (9 ≤ c.toNat ∧ c.toNat ≤ 13))

/-- ASCII case folding of one character (`str.lower()` pointwise). -/
def pyCharLower (c : Char) : Char :=
  if 65 ≤ c.toNat ∧ c.toNat ≤ 90 then Char.ofNat (c.toNat + 32) else c

/-- `str.lower()`. -/
def pyLower (s : String) : String :=
  String.mk (s.data.map pyCharLower)

/-- `str.strip()` on a character list. -/
def pyStripList (l : List Char) : List Char :=
  ((l.dropWhile isSpaceB).reverse.dropWhile isSpaceB).reverse

/-- `str.strip()`. -/
def pyStrip (s : String) : String :=
  String.mk (pyStripList s.data)

/-- List prefix test (executable). -/
def isPrefixOfB : List Char → List Char → Bool
  | [], _ => true
  | _ :: _, [] => false
  | a :: as, b :: bs => a == b && isPrefixOfB as bs

/-- Python `needle in hay` substring test, on character lists. -/
def containsSubList (needle : List Char) : List Char → Bool
  | [] => needle.isEmpty
  | h@(_ :: t) => isPrefixOfB needle h || containsSubList needle t

/-- Python `needle in hay` substring test on strings. -/
def containsSub (needle hay : String) : Bool :=
  containsSubList needle.data hay.data

/-- `''.join(filter(str.isdigit, s))` (ASCII digits, which is what users type). -/
def pyDigits (s : String) : List Char :=
  s.data.filter isDigitB

/-! ## Data model (`models.py`) -/

/-- `WorkflowStep` enum from `models.py`. -/
inductive WorkflowStep where
  | AWAITING_TERMS
  | AWAITING_NAME
  | AWAITING_EMAIL
  | AWAITING_PHONE
  | AWAITING_OTP
  | VERIFIED
  | ACTIVE
  | SUSPENDED
deriving DecidableEq, Repr

/-- Values stored in the `UserState.data` dict (`Dict[str, Any]`): the code
only ever stores strings, booleans, timestamps and `None`. -/
inductive DVal where
  | vstr (s : String)
  | vbool (b : Bool)
  | vtime (t : Int)
  | vnone
deriving DecidableEq, Repr

/-- A Python `dict` with insertion-order semantics. -/
abbrev PyDict := List (String × DVal)

/-- Python `d[k] = v`: overwrite in place if the key exists, else append. -/
def dset (d : PyDict) (k : String) (v : DVal) : PyDict :=
  if d.any (fun p => p.1 == k) then
    d.map (fun p => if p.1 == k then (k, v) else p)
  else d ++ [(k, v)]

/-- Python `d.get(k)`. -/
def dget (d : PyDict) (k : String) : Option DVal :=
  (d.find? (fun p => p.1 == k)).map (fun p => p.2)

/-- `d.get(k)` restricted to string values (the keys the state machine reads
back — `last_name`, `email`, `first_name`, `phone`, `country_code` — are only
ever written with string values). -/
def dgetStr (d : PyDict) (k : String) : Option String :=
  match dget d k with
  | some (.vstr s) => some s
  | _ => none

/-- `Option String → DVal`, for values copied out of `user_data.get(...)`. -/
def optToDVal : Option String → DVal
  | some s => .vstr s
  | none => .vnone

/-- `UserState` from `models.py` (the `created_at`/`updated_at` audit
timestamps are never read by `process_message` and are omitted). -/
structure UserState where
  user_id : String
  current_step : WorkflowStep
  completed_steps : List String
  data : PyDict
  terms_agreed : Bool := false
  terms_agreed_at : Option Int := none
  otp_hash : Option String := none
  otp_expires_at : Option Int := none
  failed_otp_attempts : Nat := 0
  max_otp_attempts : Nat := 3
deriving DecidableEq, Repr

/-- `OTPData` from `models.py`. -/
structure OTPDataM where
  user_id : String
  otp_hash : String
  expires_at : Int
  attempts : Nat
  max_attempts : Nat := 3
  email_sent_to : String
deriving DecidableEq, Repr

/-- The user record `_check_returning_user` assembles from a Firestore
document (each field read with `.get(...)`, hence optional). -/
structure UserRecord where
  user_id : String
  first_name : Option String := none
  last_name : Option String := none
  phone : Option String := none
  country_code : Option String := none
  verified : Bool := false
deriving DecidableEq, Repr

/-! ## Email validator (`validators/email_validator.py`) -/

/-- Character class `[a-zA-Z0-9._%+-]` (local part of `EMAIL_REGEX`). -/
def isLocalChar (c : Char) : Bool :=
  isAlphanumB c || c == '.' || c == '_' || c == '%' || c == '+' || c == '-'

/-- Character class `[a-zA-Z0-9.-]` (domain part of `EMAIL_REGEX`). -/
def isDomainChar (c : Char) : Bool :=
  isAlphanumB c || c == '.' || c == '-'

/-- Character class `[a-zA-Z]` (tld part of `EMAIL_REGEX`). -/
def isTldChar (c : Char) : Bool :=
  isAlphaB c

/-- Split a list at its last `'.'`: returns the part before and after it. -/
def splitAtLastDot : List Char → Option (List Char × List Char)
  | [] => none
  | x :: xs =>
    match splitAtLastDot xs with
    | some (b, c) => some (x :: b, c)
    | none => if x == '.' then some ([], xs) else none

/-- The language of `EMAIL_REGEX = ^[a-zA-Z0-9._%+-]+@[a-zA-Z0-9.-]+\.[a-zA-Z]\x7b2,\x7d$`:
a nonempty local part, one `'@'`, a nonempty domain part, a dot, and a tld of
at least two letters running to the end.  Because the tld class has no dot,
the dot before the tld is necessarily the last dot of the domain. -/
def emailRegexMatch (l : List Char) : Bool :=
  let a := l.takeWhile isLocalChar
  match l.dropWhile isLocalChar with
  | '@' :: d =>
    if a.isEmpty then false
    else
      match splitAtLastDot d with
      | some (b, c) =>
        !b.isEmpty && b.all isDomainChar && c.all isTldChar && decide (2 ≤ c.length)
      | none => false
  | _ => false

/-- `EmailValidator._is_valid_format` on an already cleaned character list. -/
def isValidFormatList (e : List Char) : Bool :=
  !e.isEmpty && decide (e.length ≤ 320) && decide (e.count '@' = 1) && emailRegexMatch e

/-- The Firestore query issued by `_check_returning_user`, as an oracle:
`(email, last_name) ↦` a record, no record, or a raised exception. -/
abbrev UserDb := String → String → Except String (Option UserRecord)

/-- `EmailValidator._check_returning_user`: runs the query and converts any
exception into `None`. -/
def checkReturningUser (db : UserDb) (email lastName : String) : Option UserRecord :=
  match db email lastName with
  | .ok r => r
  | .error _ => none

/-- Result of `EmailValidator.validate`.  In Python the three data fields
live in `result.data`, which is populated exactly when `success` is true;
here they are flattened into the result structure. -/
structure EmailVResult where
  success : Bool
  email : String
  is_returning_user : Bool
  user_data : Option UserRecord
  error_message : Option String
deriving DecidableEq, Repr

/-- `EmailValidator.validate`. -/
def emailValidate (db : UserDb) (email : String) (lastName : Option String) : EmailVResult :=
  let e := pyLower (pyStrip email)
  if isValidFormatList e.data then
    let ud :=
      match lastName with
      | some ln => if ln = "" then none else checkReturningUser db e ln
      | none => none
    { success := true
      email := e
      is_returning_user := ud.isSome
      user_data := ud
      error_message := none }
  else
    { success := false
      email := ""
      is_returning_user := false
      user_data := none
      error_message := some "That doesn't look like a valid email address. Please check and try again." }

/-- Helper for `tryMatch`: find the last `'.'` in the (maximal) domain run
that is followed by at least two letters; returns the part of the run
before that dot and the greedy letter run after it.  This reproduces the
backtracking of Python's greedy `[a-zA-Z0-9.-]+\.[a-zA-Z]\x7b2,\x7d`,
which settles on the longest domain prefix admitting the tail. -/
def lastGoodDot : List Char → Option (List Char × List Char)
  | [] => none
  | x :: xs =>
    match lastGoodDot xs with
    | some (b, c) => some (x :: b, c)
    | none =>
      if x == '.' then
        let c := xs.takeWhile isTldChar
        if 2 ≤ c.length then some ([], c) else none
      else none

/-- One attempt of the unanchored extraction pattern
`[a-zA-Z0-9._%+-]+@[a-zA-Z0-9.-]+\.[a-zA-Z]\x7b2,\x7d` at the head of `l`,
with Python's greedy/backtracking semantics. -/
def tryMatch (l : List Char) : Option (List Char) :=
  let a := l.takeWhile isLocalChar
  match l.dropWhile isLocalChar with
  | '@' :: rest =>
    if a.isEmpty then none
    else
      let r := rest.takeWhile isDomainChar
      match lastGoodDot r with
      | some (b, c) => if b.isEmpty then none else some (a ++ '@' :: (b ++ '.' :: c))
      | none => none
  | _ => none

/-- `re.findall(...)[0]`: the leftmost match of the extraction pattern. -/
def findFirstMatch : List Char → Option (List Char)
  | [] => none
  | l@(_ :: t) =>
    match tryMatch l with
    | some m => some m
    | none => findFirstMatch t

/-- `EmailValidator.extract_email_from_text`. -/
def extractEmailFromText (text : String) : Option String :=
  (findFirstMatch text.data).map (fun m => String.mk (m.map pyCharLower))

/-! ## OTP validator (`validators/otp_validator.py`) -/

/-- `OTPValidator.OTP_LENGTH`. -/
def OTP_LENGTH : Nat := 6

/-- `OTPValidator.OTP_EXPIRY_MINUTES * 60` in seconds. -/
def OTP_EXPIRY_SECONDS : Int := 300

/-- `OTPValidator.MAX_ATTEMPTS`. -/
def MAX_ATTEMPTS : Nat := 3

/-- The `OTPValidator` object: its salt plus the external SHA-256 primitive
(`hashlib.sha256(...).hexdigest()`), modelled as an oracle. -/
structure OTPValidatorS where
  salt : String
  sha256 : String → String

/-- `OTPValidator.hash_otp`: hash of `otp ++ salt`. -/
def hashOtp (v : OTPValidatorS) (otp : String) : String :=
  v.sha256 (otp ++ v.salt)

/-- Result of `OTPValidator.validate` (the `metadata` dict flattened:
`error_type` and `attempts_remaining` are its only keys used anywhere). -/
structure OtpVResult where
  success : Bool
  error_message : Option String
  error_type : Option String
  attempts_remaining : Option Nat
deriving DecidableEq, Repr

/-- `OTPValidator.validate` (`now` is `datetime.now(timezone.utc)`). -/
def otpValidate (v : OTPValidatorS) (now : Int) (input : String) (d : OTPDataM) : OtpVResult :=
  let digits := pyDigits input
  if digits.length ≠ OTP_LENGTH then
    { success := false
      error_message := some "Please enter a 6-digit code."
      error_type := some "invalid_length"
      attempts_remaining := none }
  else if now > d.expires_at then
    { success := false
      error_message := some "This code has expired. Please request a new one."
      error_type := some "expired"
      attempts_remaining := none }
  else if d.attempts ≥ d.max_attempts then
    { success := false
      error_message := some "Too many failed attempts. Please request a new code."
      error_type := some "max_attempts"
      attempts_remaining := none }
  else if hashOtp v (String.mk digits) == d.otp_hash then
    { success := true
      error_message := none
      error_type := none
      attempts_remaining := none }
  else
    let remaining := d.max_attempts - (d.attempts + 1)
    { success := false
      error_message := some (if remaining > 0 then
          "Invalid code. You have " ++ toString remaining ++ " attempt(s) remaining."
        else
          "Invalid code. No attempts remaining. Please request a new code.")
      error_type := some "invalid_code"
      attempts_remaining := some remaining }

/-- `OTPValidator.create_otp_data`: the plaintext code is generated by a
cryptographic RNG (an oracle, supplied by the environment); this computes the
stored `OTPData` for that code. -/
def createOtpData (v : OTPValidatorS) (now : Int) (plainOtp : String)
    (user_id email : String) : OTPDataM :=
  { user_id := user_id
    otp_hash := hashOtp v plainOtp
    expires_at := now + OTP_EXPIRY_SECONDS
    attempts := 0
    max_attempts := MAX_ATTEMPTS
    email_sent_to := email }

/-! ## State machine (`state_machine.py`) -/

/-- Possible results of `NameValidator.validate` (its parsing is delegated
to the external LLM, so it is an oracle; by the validator's code, `success`
carries both a first and a last name, the partial-failure path echoes a
first name, and every other path is a plain failure). -/
inductive NameOutcome where
  | full (first last : String)
  | firstOnly (first : String)
  | invalid
deriving DecidableEq, Repr

/-- Possible results of `PhoneValidator.validate` (region-aware parsing via
the external `phonenumbers` library, so an oracle: on success an E.164
phone plus country code, otherwise a categorized error message). -/
inductive PhoneOutcome where
  | valid (phone country_code : String)
  | invalid (msg : String)
deriving DecidableEq, Repr

/-- The external collaborators of `StateMachine`, as oracles:
wall-clock time, the LLM response generator (keyed by the `step` tag of the
context it is given), the LLM-backed name parser, the Firestore user query,
the `phonenumbers`-backed extractor/validator, SendGrid dispatch, the OTP
RNG, the OTP validator's salt+SHA-256, the phone masker, and the Vertex
agent used in the ACTIVE step. -/
structure Env where
  now : Int
  respond : String → String
  nameResult : String → NameOutcome
  db : UserDb
  phoneExtract : String → Option String
  phoneValidate : String → PhoneOutcome
  sendOtpEmail : String → String → Bool
  otpPlain : String
  otpv : OTPValidatorS
  maskPhone : String → String
  agentReply : String → Except String String

/-- The acceptance test of `StateMachine._handle_terms`:
`message == "TERMS_ACCEPTED" or "accept" in message.lower() or "agree" in message.lower()`. -/
def termsAccepted (msg : String) : Bool :=
  msg == "TERMS_ACCEPTED" || containsSub "accept" (pyLower msg) || containsSub "agree" (pyLower msg)

/-- `StateMachine._handle_terms`. -/
def handleTerms (env : Env) (st : UserState) (msg : String) : String × UserState :=
  if termsAccepted msg then
    (env.respond "terms_accepted",
      { st with
        completed_steps := st.completed_steps ++ ["terms_agreed"]
        data := dset st.data "terms_agreed_at" (.vtime env.now)
        terms_agreed := true
        terms_agreed_at := some env.now
        current_step := .AWAITING_NAME })
  else
    (env.respond "awaiting_terms", st)

/-- `StateMachine._handle_name`. -/
def handleName (env : Env) (st : UserState) (msg : String) : String × UserState :=
  match env.nameResult msg with
  | .full f l =>
    (env.respond "name_collected",
      { st with
        data := dset (dset st.data "first_name" (.vstr f)) "last_name" (.vstr l)
        completed_steps := st.completed_steps ++ ["name_collected"]
        current_step := .AWAITING_EMAIL })
  | .firstOnly _ => (env.respond "name_incomplete", st)
  | .invalid => (env.respond "name_incomplete", st)

/-- `StateMachine._handle_email`. -/
def handleEmail (env : Env) (st : UserState) (msg : String) : String × UserState :=
  let lastName := dgetStr st.data "last_name"
  let emailToValidate :=
    match extractEmailFromText msg with
    | some e => e
    | none => pyStrip msg
  let r := emailValidate env.db emailToValidate lastName
  if r.success then
    let d1 := dset st.data "email" (.vstr r.email)
    let cs1 := st.completed_steps ++ ["email_collected"]
    match r.is_returning_user, r.user_data with
    | true, some ud =>
      let d2 := dset (dset (dset d1 "returning_user" (.vbool true))
        "existing_phone" (optToDVal ud.phone)) "existing_country_code" (optToDVal ud.country_code)
      let masked := match ud.phone with
        | some p => env.maskPhone p
        | none => "***"
      let resp0 := env.respond "email_returning_user"
      let resp := if containsSub masked resp0 then resp0 else resp0 ++ " (" ++ masked ++ ")"
      (resp, { st with data := d2, completed_steps := cs1, current_step := .AWAITING_PHONE })
    | _, _ =>
      (env.respond "email_collected",
        { st with
          data := dset d1 "returning_user" (.vbool false)
          completed_steps := cs1
          current_step := .AWAITING_PHONE })
  else
    (env.respond "email_invalid", st)

/-- `StateMachine._handle_phone`.  `state.data["email"]` raises `KeyError`
when the key is absent, modelled by `Except.error`. -/
def handlePhone (env : Env) (st : UserState) (msg : String) :
    Except String (String × UserState) :=
  let target :=
    match env.phoneExtract msg with
    | some p => p
    | none => msg
  match env.phoneValidate target with
  | .valid phone cc =>
    let d1 := dset (dset st.data "phone" (.vstr phone)) "country_code" (.vstr cc)
    let cs1 := st.completed_steps ++ ["phone_collected"]
    match dgetStr d1 "email" with
    | none => .error "KeyError: email"
    | some em =>
      let od := createOtpData env.otpv env.now env.otpPlain st.user_id em
      let st1 := { st with
        data := d1
        completed_steps := cs1
        otp_hash := some od.otp_hash
        otp_expires_at := some od.expires_at
        failed_otp_attempts := 0 }
      if env.sendOtpEmail em env.otpPlain then
        .ok (env.respond "otp_sent", { st1 with current_step := .AWAITING_OTP })
      else
        .ok (env.respond "otp_send_failed", st1)
  | .invalid _ => .ok (env.respond "phone_invalid", st)

/-- `StateMachine._handle_otp`.  Reconstructing `OTPData` from the state
reads `state.data["email"]` (possible `KeyError`) and requires the stored
`otp_hash` and `otp_expires_at` to be populated (else pydantic raises a
`ValidationError`); on success the `User(...)` construction reads the four
collected fields (possible `KeyError`). -/
def handleOtp (env : Env) (st : UserState) (msg : String) :
    Except String (String × UserState) :=
  match dgetStr st.data "email" with
  | none => .error "KeyError: email"
  | some em =>
    match st.otp_hash, st.otp_expires_at with
    | some h, some exp =>
      let od : OTPDataM :=
        { user_id := st.user_id
          otp_hash := h
          expires_at := exp
          attempts := st.failed_otp_attempts
          email_sent_to := em }
      let r := otpValidate env.otpv env.now msg od
      if r.success then
        match dgetStr st.data "first_name", dgetStr st.data "last_name",
            dgetStr st.data "phone", dgetStr st.data "country_code" with
        | some _, some _, some _, some _ =>
          .ok (env.respond "otp_verified",
            { st with
              completed_steps := st.completed_steps ++ ["otp_verified"]
              current_step := .ACTIVE })
        | _, _, _, _ => .error "KeyError: user fields"
      else
        .ok (env.respond "otp_invalid", { st with failed_otp_attempts := od.attempts + 1 })
    | _, _ => .error "ValidationError: OTPData requires otp_hash and expires_at"

/-- `StateMachine._handle_active_conversation`: the Vertex agent call, with
its exception fallback; the state is returned untouched. -/
def handleActive (env : Env) (st : UserState) (msg : String) : String × UserState :=
  (match env.agentReply msg with
   | .ok r => r
   | .error _ => "I'm having trouble connecting. Please try again.", st)

/-- `StateMachine.process_message`. -/
def processMessage (env : Env) (st : UserState) (msg : String) :
    Except String (String × UserState) :=
  match st.current_step with
  | .AWAITING_TERMS => .ok (handleTerms env st msg)
  | .AWAITING_NAME => .ok (handleName env st msg)
  | .AWAITING_EMAIL => .ok (handleEmail env st msg)
  | .AWAITING_PHONE => handlePhone env st msg
  | .AWAITING_OTP => handleOtp env st msg
  | .ACTIVE => .ok (handleActive env st msg)
  | _ => .ok (env.respond "unknown", st)

/-- The successor of each step in `StateMachine.TRANSITIONS` (single edge per
state; `ACTIVE` self-loops; `VERIFIED`/`SUSPENDED` have no entry). -/
def nextStep : WorkflowStep → WorkflowStep
  | .AWAITING_TERMS => .AWAITING_NAME
  | .AWAITING_NAME => .AWAITING_EMAIL
  | .AWAITING_EMAIL => .AWAITING_PHONE
  | .AWAITING_PHONE => .AWAITING_OTP
  | .AWAITING_OTP => .ACTIVE
  | s => s

/-- Success of the name validator on this message. -/
def nameOkB (env : Env) (msg : String) : Bool :=
  match env.nameResult msg with
  | .full _ _ => true
  | _ => false

/-- Success of the email validator on the extracted-or-raw input, as
`_handle_email` invokes it. -/
def emailOkB (env : Env) (st : UserState) (msg : String) : Bool :=
  (emailValidate env.db
    (match extractEmailFromText msg with
     | some e => e
     | none => pyStrip msg)
    (dgetStr st.data "last_name")).success

/-- Success of the phone validator on the extracted-or-raw input, as
`_handle_phone` invokes it. -/
def phoneOkB (env : Env) (msg : String) : Bool :=
  match env.phoneValidate
    (match env.phoneExtract msg with
     | some p => p
     | none => msg) with
  | .valid _ _ => true
  | .invalid _ => false

/-- Success of the OTP validator on the `OTPData` reconstructed from the
state, as `_handle_otp` invokes it. -/
def otpOkB (env : Env) (st : UserState) (msg : String) : Bool :=
  match dgetStr st.data "email", st.otp_hash, st.otp_expires_at with
  | some em, some h, some exp =>
    (otpValidate env.otpv env.now msg
      { user_id := st.user_id
        otp_hash := h
        expires_at := exp
        attempts := st.failed_otp_attempts
        email_sent_to := em }).success
  | _, _, _ => false

/-- Whether the validator consulted for the current step reports success on
this message (for AWAITING_TERMS, the acceptance check plays that role; for
ACTIVE there is no validator and the self-loop is unconditional). -/
def stepValidatorOk (env : Env) (st : UserState) (msg : String) : Bool :=
  match st.current_step with
  | .AWAITING_TERMS => termsAccepted msg
  | .AWAITING_NAME => nameOkB env msg
  | .AWAITING_EMAIL => emailOkB env st msg
  | .AWAITING_PHONE => phoneOkB env msg
  | .AWAITING_OTP => otpOkB env st msg
  | .ACTIVE => true
  | _ => false

/-! ## Tool registry (`tools/registry.py` and `models.py`'s `ToolResult`) -/

/-- `ToolCall.parameters` (`Dict[str, Any]`; the values are opaque to the
registry, so they are modelled as strings). -/
abbrev ToolParams := List (String × String)

/-- `ToolCall` from `models.py` (the optional `reasoning` field is never
read by the registry and is omitted). -/
structure ToolCall where
  name : String
  parameters : ToolParams
deriving DecidableEq, Repr

/-- `ToolResult` from `models.py`: `tool_name` and `success` are required
pydantic fields, `result`/`error` default to `None` (`executed_at` and
`execution_time_ms` are audit metadata, never read, and omitted). -/
structure ToolResult where
  tool_name : String
  success : Bool
  result : Option (List (String × String)) := none
  error : Option String := none
deriving DecidableEq, Repr

/-- Constructing a `ToolResult(...)` in pydantic: the required `tool_name`
field must be supplied or a `ValidationError` is raised; unknown keyword
arguments (such as the `data=` used in `registry.py`) are silently ignored
and therefore do not appear here. -/
def mkToolResult (tool_name : Option String) (success : Bool)
    (result : Option (List (String × String))) (error : Option String) :
    Except String ToolResult :=
  match tool_name with
  | some n => .ok { tool_name := n, success := success, result := result, error := error }
  | none => .error "ValidationError: 1 validation error for ToolResult tool_name Field required"

/-- A registered handler: `(parameters, user_id, context) ↦` a result dict,
or a raised exception. -/
abbrev ToolHandler := ToolParams → String → List (String × String) →
  Except String (List (String × String))

/-- One entry of `ToolRegistry.tools` (of the stored dict, only the
schema's `required` list and the handler are ever read back; the name key
and description are kept for fidelity). -/
structure ToolEntry where
  description : String
  required : List String
  handler : ToolHandler
  requires_auth : Bool := true

/-- `ToolRegistry.tools`: a dict keyed by tool name. -/
abbrev Registry := List (String × ToolEntry)

/-- Dict lookup on the registry. -/
def regGet (reg : Registry) (name : String) : Option ToolEntry :=
  (reg.find? (fun p => p.1 == name)).map (fun p => p.2)

/-- `ToolRegistry.register_tool`: duplicate names overwrite. -/
def registerTool (reg : Registry) (name : String) (e : ToolEntry) : Registry :=
  if reg.any (fun p => p.1 == name) then
    reg.map (fun p => if p.1 == name then (name, e) else p)
  else reg ++ [(name, e)]

/-- `ToolRegistry._register_builtin_tools`, parameterized by the three
handler implementations. -/
def builtinRegistry (schedule slots cancel : ToolHandler) : Registry :=
  registerTool (registerTool (registerTool []
    "schedule_appointment"
    { description := "Schedule an appointment for the user"
      required := ["date", "time", "purpose"]
      handler := schedule })
    "get_available_slots"
    { description := "Get available appointment slots for a date"
      required := ["date"]
      handler := slots })
    "cancel_appointment"
    { description := "Cancel an existing appointment"
      required := ["appointment_id"]
      handler := cancel }

/-- `ToolRegistry.validate_tool_call`. -/
def validateToolCall (reg : Registry) (call : ToolCall) : Bool × Option String :=
  match regGet reg call.name with
  | none => (false, some ("Tool '" ++ call.name ++ "' not found in registry"))
  | some td =>
    match td.required.find? (fun p => !(call.parameters.any (fun q => q.1 == p))) with
    | some p => (false, some ("Missing required parameter: " ++ p))
    | none => (true, none)

/-- `ToolRegistry.execute_tool`.  `Except.error` models an exception
escaping `execute_tool` (pydantic's `ValidationError` from the `ToolResult`
constructions, which omit the required `tool_name` field). -/
def executeTool (reg : Registry) (call : ToolCall) (user_id : String)
    (context : List (String × String)) : Except String ToolResult :=
  let v := validateToolCall reg call
  if v.1 then
    match regGet reg call.name with
    | some td =>
      match td.handler call.parameters user_id context with
      | .ok _ =>
        -- the `data=result_data` keyword is not a `ToolResult` field and is
        -- ignored by pydantic, so the handler's result does not reach the
        -- constructed object
        mkToolResult none true none none
      | .error e => mkToolResult none false none (some e)
    | none =>
      -- unreachable: `validateToolCall` only returns `true` for registered names
      mkToolResult none false none (some "unreachable")
  else
    mkToolResult none false none v.2

/-! ## Spec-side characterizations

These follow the spec's wording (`local@domain.tld`, tld of at least two
letters) rather than the executable matcher, so that the theorems relate
the two. -/

/-- The spec's shape of an email: nonempty local and domain parts over the
documented character classes and a tld of at least two letters. -/
def SpecEmailShape (a b c : List Char) : Prop :=
  a ≠ [] ∧ a.all isLocalChar = true ∧ b ≠ [] ∧ b.all isDomainChar = true ∧
    c.all isTldChar = true ∧ 2 ≤ c.length

/-- The spec's `local@domain.tld` pattern covering the whole string. -/
def SpecEmailPattern (l : List Char) : Prop :=
  ∃ a b c, l = a ++ '@' :: (b ++ '.' :: c) ∧ SpecEmailShape a b c

/-- An email-shaped substring occurs somewhere in the text. -/
def HasEmailShapedSub (l : List Char) : Prop :=
  ∃ pre a b c post, l = pre ++ (a ++ '@' :: (b ++ '.' :: c)) ++ post ∧ SpecEmailShape a b c

/-! ## Concrete fixtures used to evaluate the embedded code -/

/-- A user-record store in which no user exists. -/
def dbNone : UserDb := fun _ _ => Except.ok none

/-- A user-record store whose query always raises. -/
def dbBoom : UserDb := fun _ _ => Except.error "firestore unavailable"

/-- A concrete OTP validator (salt plus a stand-in for the external SHA-256
primitive, which the embedding treats as an opaque function). -/
def otpvW : OTPValidatorS := { salt := "salt", sha256 := fun s => "h:" ++ s }

/-- A concrete environment for evaluating the state machine. -/
def envW : Env :=
  { now := 1000
    respond := fun t => t
    nameResult := fun m => if m = "John Smith" then .full "John" "Smith" else .invalid
    db := dbNone
    phoneExtract := fun _ => none
    phoneValidate := fun s =>
      if s = "+15551234567" then .valid "+15551234567" "+1" else .invalid "invalid"
    sendOtpEmail := fun _ _ => true
    otpPlain := "123456"
    otpv := otpvW
    maskPhone := fun p => p
    agentReply := fun _ => .ok "ok" }

/-- `envW` with SendGrid dispatch failing. -/
def envNoEmail : Env := { envW with sendOtpEmail := fun _ _ => false }

/-- `envW` at a time past the stored OTP expiry. -/
def envLate : Env := { envW with now := 2000 }

/-- Fresh user at the terms step. -/
def stTermsW : UserState :=
  { user_id := "u1", current_step := .AWAITING_TERMS, completed_steps := [], data := [] }

/-- User at the phone step with the earlier fields collected. -/
def stPhoneW : UserState :=
  { user_id := "u1"
    current_step := .AWAITING_PHONE
    completed_steps := ["terms_agreed", "name_collected", "email_collected"]
    data := [("first_name", .vstr "John"), ("last_name", .vstr "Smith"),
             ("email", .vstr "john@x.com")] }

/-- User at the OTP step; the stored hash is `otpvW`'s hash of `123456`. -/
def stOtpW : UserState :=
  { user_id := "u1"
    current_step := .AWAITING_OTP
    completed_steps := ["terms_agreed", "name_collected", "email_collected", "phone_collected"]
    data := [("first_name", .vstr "John"), ("last_name", .vstr "Smith"),
             ("email", .vstr "john@x.com"), ("phone", .vstr "+15551234567"),
             ("country_code", .vstr "+1")]
    otp_hash := some "h:123456salt"
    otp_expires_at := some 1300 }

/-- The stored `OTPData` reconstructed from `stOtpW`, as `_handle_otp` does. -/
def otpdW : OTPDataM :=
  { user_id := "u1"
    otp_hash := "h:123456salt"
    expires_at := 1300
    attempts := 0
    email_sent_to := "john@x.com" }

/-- `otpdW` with its attempts exhausted. -/
def otpdExhausted : OTPDataM := { otpdW with attempts := 3 }

/-- Result of processing "I accept" at the terms step. -/
def pTermsAccept : String × UserState :=
  ((processMessage envW stTermsW "I accept").toOption).getD ("", stTermsW)

/-- Result of processing a negated acceptance at the terms step. -/
def pTermsNeg : String × UserState :=
  ((processMessage envW stTermsW "I do not accept").toOption).getD ("", stTermsW)

/-- Result of processing a non-accepting message at the terms step. -/
def pTermsNo : String × UserState :=
  ((processMessage envW stTermsW "hello there").toOption).getD ("", stTermsW)

/-- Result of processing a valid phone while OTP email dispatch fails. -/
def pPhoneFail : String × UserState :=
  ((processMessage envNoEmail stPhoneW "+15551234567").toOption).getD ("", stPhoneW)

/-- A text whose only email-shaped substring is longer than 320 characters. -/
def bigT : String := String.mk (List.replicate 321 'a' ++ "@b.co".data)

/-! ## Character-level lemmas -/

theorem charToNat_ofNat_valid (n : Nat) (h : n.isValidChar) :
    (Char.ofNat n).toNat = n := by
  rw [Char.ofNat, dif_pos h]
  rfl

theorem pyCharLower_toNat (c : Char) :
    (65 ≤ c.toNat ∧ c.toNat ≤ 90 → (pyCharLower c).toNat = c.toNat + 32) ∧
    (¬(65 ≤ c.toNat ∧ c.toNat ≤ 90) → pyCharLower c = c) := by
  constructor
  · intro h
    rw [pyCharLower, if_pos h]
    exact charToNat_ofNat_valid _ (Or.inl (by omega))
  · intro h
    rw [pyCharLower, if_neg h]

theorem isAlphaB_pyCharLower (c : Char) (h : isAlphaB c = true) :
    isAlphaB (pyCharLower c) = true := by
  rw [isAlphaB, decide_eq_true_iff] at h ⊢
  by_cases hu : 65 ≤ c.toNat ∧ c.toNat ≤ 90
  · rw [(pyCharLower_toNat c).1 hu]
    omega
  · rw [(pyCharLower_toNat c).2 hu]
    omega

theorem isDigitB_pyCharLower (c : Char) (h : isDigitB c = true) :
    isDigitB (pyCharLower c) = true := by
  rw [isDigitB, decide_eq_true_iff] at h
  rw [(pyCharLower_toNat c).2 (by omega)]
  rw [isDigitB, decide_eq_true_iff]
  omega

theorem pyCharLower_of_symbol (c : Char) (h : c.toNat < 65) : pyCharLower c = c :=
  (pyCharLower_toNat c).2 (by omega)

theorem isAlphanumB_pyCharLower (c : Char) (h : isAlphanumB c = true) :
    isAlphanumB (pyCharLower c) = true := by
  rcases Bool.or_eq_true_iff.mp h with h | h
  · exact Bool.or_eq_true_iff.mpr (Or.inl (isAlphaB_pyCharLower c h))
  · exact Bool.or_eq_true_iff.mpr (Or.inr (isDigitB_pyCharLower c h))

theorem isLocalChar_pyCharLower (c : Char) (h : isLocalChar c = true) :
    isLocalChar (pyCharLower c) = true := by
  simp only [isLocalChar, Bool.or_eq_true, beq_iff_eq] at h ⊢
  rcases h with ((((h | h) | h) | h) | h) | h
  · exact Or.inl (Or.inl (Or.inl (Or.inl (Or.inl (isAlphanumB_pyCharLower c h)))))
  all_goals subst h
  all_goals decide

theorem isDomainChar_pyCharLower (c : Char) (h : isDomainChar c = true) :
    isDomainChar (pyCharLower c) = true := by
  simp only [isDomainChar, Bool.or_eq_true, beq_iff_eq] at h ⊢
  rcases h with (h | h) | h
  · exact Or.inl (Or.inl (isAlphanumB_pyCharLower c h))
  all_goals subst h
  all_goals decide

theorem isTldChar_pyCharLower (c : Char) (h : isTldChar c = true) :
    isTldChar (pyCharLower c) = true :=
  isAlphaB_pyCharLower c h

theorem isLocalChar_not_space (c : Char) (h : isLocalChar c = true) :
    isSpaceB c = false := by
  simp only [isLocalChar, Bool.or_eq_true, beq_iff_eq, isAlphanumB, isAlphaB, isDigitB,
    decide_eq_true_iff] at h
  simp only [isSpaceB, decide_eq_false_iff_not]
  rcases h with ((((h | h) | h) | h) | h) | h
  · omega
  all_goals subst h
  all_goals decide

theorem isDomainChar_not_space (c : Char) (h : isDomainChar c = true) :
    isSpaceB c = false := by
  simp only [isDomainChar, Bool.or_eq_true, beq_iff_eq, isAlphanumB, isAlphaB, isDigitB,
    decide_eq_true_iff] at h
  simp only [isSpaceB, decide_eq_false_iff_not]
  rcases h with (h | h) | h
  · omega
  all_goals subst h
  all_goals decide

theorem isTldChar_not_space (c : Char) (h : isTldChar c = true) :
    isSpaceB c = false := by
  simp only [isTldChar, isAlphaB, decide_eq_true_iff] at h
  simp only [isSpaceB, decide_eq_false_iff_not]
  omega

theorem isLocalChar_ne_at (c : Char) (h : isLocalChar c = true) : c ≠ '@' := by
  intro hc
  subst hc
  exact absurd h (by decide)

theorem isDomainChar_ne_at (c : Char) (h : isDomainChar c = true) : c ≠ '@' := by
  intro hc
  subst hc
  exact absurd h (by decide)

theorem isTldChar_ne_dot (c : Char) (h : isTldChar c = true) : c ≠ '.' := by
  intro hc
  subst hc
  exact absurd h (by decide)

theorem isTldChar_ne_at (c : Char) (h : isTldChar c = true) : c ≠ '@' := by
  intro hc
  subst hc
  exact absurd h (by decide)

/-! ## List-level lemmas -/

theorem takeWhile_all_sat (p : Char → Bool) (l : List Char) :
    (l.takeWhile p).all p = true := by
  induction l with
  | nil => rfl
  | cons x xs ih =>
    rw [List.takeWhile]
    cases hp : p x with
    | true => simp [hp, ih]
    | false => rfl

theorem takeWhile_append_of_all (p : Char → Bool) (a : List Char) (y : Char) (t : List Char)
    (h1 : a.all p = true) (h2 : p y = false) :
    (a ++ y :: t).takeWhile p = a := by
  induction a with
  | nil => simp [List.takeWhile, h2]
  | cons x xs ih =>
    simp only [List.all_cons, Bool.and_eq_true] at h1
    simp [List.takeWhile, h1.1, ih h1.2]

theorem dropWhile_append_of_all (p : Char → Bool) (a : List Char) (y : Char) (t : List Char)
    (h1 : a.all p = true) (h2 : p y = false) :
    (a ++ y :: t).dropWhile p = y :: t := by
  induction a with
  | nil => simp [List.dropWhile, h2]
  | cons x xs ih =>
    simp only [List.all_cons, Bool.and_eq_true] at h1
    simp [List.dropWhile, h1.1, ih h1.2]

theorem splitAtLastDot_eq_none_iff (l : List Char) :
    splitAtLastDot l = none ↔ '.' ∉ l := by
  induction l with
  | nil => simp [splitAtLastDot]
  | cons x xs ih =>
    rw [splitAtLastDot]
    cases hs : splitAtLastDot xs with
    | some bc =>
      have hdot : '.' ∈ xs := by
        by_contra hq
        rw [← ih] at hq
        rw [hq] at hs
        exact Option.noConfusion hs
      constructor
      · intro hq
        exact absurd hq (by simp)
      · intro hq
        exact absurd (List.mem_cons_of_mem x hdot) hq
    | none =>
      have hnd : '.' ∉ xs := ih.mp hs
      by_cases hx : x = '.'
      · subst hx
        simp
      · have hb : (x == '.') = false := by simp [hx]
        rw [hb]
        simp [List.mem_cons, hnd, Ne.symm hx]

theorem splitAtLastDot_sound (l : List Char) : ∀ (b c : List Char),
    splitAtLastDot l = some (b, c) → l = b ++ '.' :: c ∧ '.' ∉ c := by
  induction l with
  | nil =>
    intro b c h
    exact absurd h (by simp [splitAtLastDot])
  | cons x xs ih =>
    intro b c h
    rw [splitAtLastDot] at h
    cases hs : splitAtLastDot xs with
    | some bc =>
      obtain ⟨b0, c0⟩ := bc
      rw [hs] at h
      simp only [Option.some.injEq, Prod.mk.injEq] at h
      obtain ⟨hb, hc⟩ := h
      obtain ⟨hx0, hnd⟩ := ih b0 c0 hs
      subst hb
      subst hc
      exact ⟨by rw [List.cons_append, ← hx0], hnd⟩
    | none =>
      rw [hs] at h
      by_cases hx : x = '.'
      · subst hx
        rw [if_pos (by simp)] at h
        simp only [Option.some.injEq, Prod.mk.injEq] at h
        obtain ⟨hb, hc⟩ := h
        subst hb
        subst hc
        exact ⟨by simp, (splitAtLastDot_eq_none_iff xs).mp hs⟩
      · rw [if_neg (by simp [hx])] at h
        exact absurd h (by simp)

theorem splitAtLastDot_append (b c : List Char) (h : '.' ∉ c) :
    splitAtLastDot (b ++ '.' :: c) = some (b, c) := by
  induction b with
  | nil =>
    rw [List.nil_append, splitAtLastDot, (splitAtLastDot_eq_none_iff c).mpr h]
    simp
  | cons x xs ih =>
    rw [List.cons_append, splitAtLastDot, ih]

theorem pyStripList_eq_self (l : List Char) (h : ∀ c ∈ l, isSpaceB c = false) :
    pyStripList l = l := by
  have h1 : List.dropWhile isSpaceB l = l := by
    rw [List.dropWhile_eq_self_iff]
    intro hne
    simp only [Bool.not_eq_true]
    exact h _ (List.get_mem l 0 hne)
  have h2 : List.dropWhile isSpaceB l.reverse = l.reverse := by
    rw [List.dropWhile_eq_self_iff]
    intro hne
    simp only [Bool.not_eq_true]
    exact h _ (List.mem_reverse.mp (List.get_mem l.reverse 0 hne))
  rw [pyStripList, h1, h2, List.reverse_reverse]

/-! ## The executable matcher recognizes exactly the spec's pattern -/

theorem emailRegexMatch_iff (l : List Char) :
    emailRegexMatch l = true ↔ SpecEmailPattern l := by
  constructor
  · intro h
    simp only [emailRegexMatch] at h
    split at h
    case h_2 => exact absurd h (by simp)
    case h_1 d heq =>
      by_cases ha : (l.takeWhile isLocalChar).isEmpty = true
      · rw [if_pos ha] at h
        exact absurd h (by simp)
      · rw [if_neg ha] at h
        split at h
        next b c heq2 =>
          simp only [Bool.and_eq_true, Bool.not_eq_true', decide_eq_true_eq] at h
          obtain ⟨⟨⟨hbne, hball⟩, hcall⟩, hclen⟩ := h
          refine ⟨l.takeWhile isLocalChar, b, c, ?_, ?_, takeWhile_all_sat isLocalChar l,
            ?_, hball, hcall, hclen⟩
          · conv_lhs => rw [← List.takeWhile_append_dropWhile (p := isLocalChar) (l := l)]
            rw [heq, (splitAtLastDot_sound d b c heq2).1]
          · intro hq
            rw [hq] at ha
            exact ha rfl
          · intro hq
            rw [hq] at hbne
            exact absurd hbne (by simp)
        next => exact absurd h (by simp)
  · rintro ⟨a, b, c, rfl, hane, haall, hbne, hball, hcall, hclen⟩
    have hdot_c : '.' ∉ c := by
      intro hq
      exact isTldChar_ne_dot '.' (List.all_eq_true.mp hcall '.' hq) rfl
    have h1 : (a ++ '@' :: (b ++ '.' :: c)).takeWhile isLocalChar = a :=
      takeWhile_append_of_all isLocalChar a '@' _ haall (by decide)
    have h2 : (a ++ '@' :: (b ++ '.' :: c)).dropWhile isLocalChar = '@' :: (b ++ '.' :: c) :=
      dropWhile_append_of_all isLocalChar a '@' _ haall (by decide)
    simp only [emailRegexMatch]
    split
    case h_2 hne => exact (hne _ h2).elim
    case h_1 d heq =>
      have hd : d = b ++ '.' :: c := by
        have h3 := heq.symm.trans h2
        injection h3
      subst hd
      rw [h1]
      have hae : a.isEmpty = false := by
        cases a with
        | nil => exact absurd rfl hane
        | cons _ _ => rfl
      rw [hae, if_neg (fun hq => Bool.noConfusion hq)]
      rw [splitAtLastDot_append b c hdot_c]
      have hbe : b.isEmpty = false := by
        cases b with
        | nil => exact absurd rfl hbne
        | cons _ _ => rfl
      simp [hbe, hball, hcall, hclen]

theorem specEmailPattern_count_at (l : List Char) (h : SpecEmailPattern l) :
    l.count '@' = 1 := by
  obtain ⟨a, b, c, rfl, _, haall, _, hball, hcall, _⟩ := h
  have hz : ∀ (xs : List Char) (p : Char → Bool), xs.all p = true →
      (∀ x, p x = true → x ≠ '@') → xs.count '@' = 0 := by
    intro xs p hall hne
    rw [List.count_eq_zero]
    intro hmem
    exact hne '@' (List.all_eq_true.mp hall '@' hmem) rfl
  have hca : a.count '@' = 0 := hz a isLocalChar haall isLocalChar_ne_at
  have hcb : b.count '@' = 0 := hz b isDomainChar hball isDomainChar_ne_at
  have hcc : c.count '@' = 0 := hz c isTldChar hcall isTldChar_ne_at
  simp [List.count_append, List.count_cons, hca, hcb, hcc]

theorem emailValidate_success_eq (db : UserDb) (email : String) (lastName : Option String) :
    (emailValidate db email lastName).success =
      isValidFormatList (pyLower (pyStrip email)).data := by
  simp only [emailValidate]
  split
  next h => rw [h]
  next h => rw [Bool.not_eq_true] at h; rw [h]

theorem isValidFormatList_iff (e : List Char) :
    isValidFormatList e = true ↔
      e.count '@' = 1 ∧ e.length ≤ 320 ∧ SpecEmailPattern e := by
  rw [isValidFormatList]
  simp only [Bool.and_eq_true, Bool.not_eq_true', decide_eq_true_eq, emailRegexMatch_iff]
  constructor
  · rintro ⟨⟨⟨_, hlen⟩, hcount⟩, hpat⟩
    exact ⟨hcount, hlen, hpat⟩
  · rintro ⟨hcount, hlen, hpat⟩
    refine ⟨⟨⟨?_, hlen⟩, hcount⟩, hpat⟩
    obtain ⟨a, b, c, heq, hane, _⟩ := hpat
    rw [heq]
    cases a with
    | nil => exact absurd rfl hane
    | cons _ _ => rfl

/-! ## Soundness and completeness of the extraction scanner -/

theorem isTldChar_isDomainChar (c : Char) (h : isTldChar c = true) : isDomainChar c = true := by
  simp only [isTldChar] at h
  simp [isDomainChar, isAlphanumB, h]

theorem takeWhile_append_all (p : Char → Bool) (u v : List Char) (h : u.all p = true) :
    (u ++ v).takeWhile p = u ++ v.takeWhile p := by
  induction u with
  | nil => simp
  | cons x xs ih =>
    simp only [List.all_cons, Bool.and_eq_true] at h
    simp [List.takeWhile, h.1, ih h.2]

theorem lastGoodDot_sound (r : List Char) : ∀ b c, lastGoodDot r = some (b, c) →
    ∃ xs, r = b ++ '.' :: xs ∧ c = xs.takeWhile isTldChar ∧ 2 ≤ c.length := by
  induction r with
  | nil =>
    intro b c h
    exact absurd h (by simp [lastGoodDot])
  | cons x xs ih =>
    intro b c h
    simp only [lastGoodDot] at h
    cases hs : lastGoodDot xs with
    | some bc =>
      obtain ⟨b0, c0⟩ := bc
      rw [hs] at h
      simp only [Option.some.injEq, Prod.mk.injEq] at h
      obtain ⟨hb, hc⟩ := h
      obtain ⟨ys, hys, hcy, hlen⟩ := ih b0 c0 hs
      subst hb
      subst hc
      exact ⟨ys, by rw [List.cons_append, ← hys], hcy, hlen⟩
    | none =>
      rw [hs] at h
      by_cases hx : (x == '.') = true
      · rw [if_pos hx] at h
        by_cases hl : 2 ≤ (xs.takeWhile isTldChar).length
        · rw [if_pos hl] at h
          simp only [Option.some.injEq, Prod.mk.injEq] at h
          obtain ⟨hb, hc⟩ := h
          subst hb
          subst hc
          exact ⟨xs, by rw [eq_of_beq hx, List.nil_append], rfl, hl⟩
        · rw [if_neg hl] at h
          exact absurd h (by simp)
      · rw [if_neg hx] at h
        exact absurd h (by simp)

theorem tryMatch_sound (l m : List Char) (h : tryMatch l = some m) :
    ∃ a b c rest, m = a ++ '@' :: (b ++ '.' :: c) ∧ SpecEmailShape a b c ∧ l = m ++ rest := by
  simp only [tryMatch] at h
  split at h
  next restl heq =>
    by_cases ha : (l.takeWhile isLocalChar).isEmpty = true
    · rw [if_pos ha] at h
      exact absurd h (by simp)
    · rw [if_neg ha] at h
      cases hg : lastGoodDot (restl.takeWhile isDomainChar) with
      | none =>
        rw [hg] at h
        exact absurd h (by simp)
      | some bc =>
        obtain ⟨b, c⟩ := bc
        simp only [hg] at h
        by_cases hb : b.isEmpty = true
        · rw [if_pos hb] at h
          exact absurd h (by simp)
        · rw [if_neg hb] at h
          simp only [Option.some.injEq] at h
          obtain ⟨ys, hys, hcy, hclen⟩ := lastGoodDot_sound _ b c hg
          have hane : l.takeWhile isLocalChar ≠ [] := by
            intro hq
            rw [hq] at ha
            exact ha rfl
          have hbne : b ≠ [] := by
            intro hq
            rw [hq] at hb
            exact hb rfl
          have hball : b.all isDomainChar = true := by
            have hr := takeWhile_all_sat isDomainChar restl
            rw [hys] at hr
            simp only [List.all_append, Bool.and_eq_true] at hr
            exact hr.1
          have hcall : c.all isTldChar = true := by
            rw [hcy]
            exact takeWhile_all_sat isTldChar ys
          refine ⟨l.takeWhile isLocalChar, b, c,
            ys.dropWhile isTldChar ++ restl.dropWhile isDomainChar, h.symm,
            ⟨hane, takeWhile_all_sat isLocalChar l, hbne, hball, hcall, hclen⟩, ?_⟩
          have hY : ys = c ++ ys.dropWhile isTldChar := by
            conv_lhs => rw [← List.takeWhile_append_dropWhile (p := isTldChar) (l := ys)]
            rw [← hcy]
          have hR : restl = (b ++ '.' :: ys) ++ restl.dropWhile isDomainChar := by
            conv_lhs => rw [← List.takeWhile_append_dropWhile (p := isDomainChar) (l := restl)]
            rw [hys]
          rw [← h]
          conv_lhs => rw [← List.takeWhile_append_dropWhile (p := isLocalChar) (l := l)]
          conv_lhs => rw [heq]
          conv_lhs => rw [hR]
          conv_lhs => rw [hY]
          simp [List.append_assoc]
  next =>
    exact absurd h (by simp)

theorem lastGoodDot_some_of (r : List Char) : ∀ u v, r = u ++ '.' :: v →
    2 ≤ (v.takeWhile isTldChar).length →
    ∃ b c, lastGoodDot r = some (b, c) ∧ u.length ≤ b.length := by
  induction r with
  | nil =>
    intro u v hr _
    cases u <;> simp at hr
  | cons x xs ih =>
    intro u v hr hv
    simp only [lastGoodDot]
    cases hs : lastGoodDot xs with
    | some bc =>
      obtain ⟨b0, c0⟩ := bc
      refine ⟨x :: b0, c0, by simp, ?_⟩
      cases u with
      | nil => simp
      | cons w u2 =>
        simp only [List.cons_append, List.cons.injEq] at hr
        obtain ⟨b1, c1, hb1, hlen1⟩ := ih u2 v hr.2 hv
        rw [hs] at hb1
        simp only [Option.some.injEq, Prod.mk.injEq] at hb1
        obtain ⟨hbb, _⟩ := hb1
        subst hbb
        simp only [List.length_cons]
        omega
    | none =>
      cases u with
      | cons w u2 =>
        simp only [List.cons_append, List.cons.injEq] at hr
        obtain ⟨b1, c1, hb1, _⟩ := ih u2 v hr.2 hv
        rw [hs] at hb1
        exact absurd hb1 (by simp)
      | nil =>
        simp only [List.nil_append, List.cons.injEq] at hr
        obtain ⟨hx, hxs⟩ := hr
        subst hx
        subst hxs
        exact ⟨[], xs.takeWhile isTldChar, by simp [hv], by simp⟩

theorem tryMatch_complete (a b c rest : List Char) (hs : SpecEmailShape a b c) :
    ∃ m, tryMatch (a ++ '@' :: ((b ++ '.' :: c) ++ rest)) = some m := by
  obtain ⟨hane, haall, hbne, hball, hcall, hclen⟩ := hs
  have h1 : (a ++ '@' :: ((b ++ '.' :: c) ++ rest)).takeWhile isLocalChar = a :=
    takeWhile_append_of_all isLocalChar a '@' _ haall (by decide)
  have h2 : (a ++ '@' :: ((b ++ '.' :: c) ++ rest)).dropWhile isLocalChar =
      '@' :: ((b ++ '.' :: c) ++ rest) :=
    dropWhile_append_of_all isLocalChar a '@' _ haall (by decide)
  simp only [tryMatch]
  split
  next restl heq =>
    have hrestl : restl = (b ++ '.' :: c) ++ rest := by
      have h3 := heq.symm.trans h2
      injection h3
    subst hrestl
    rw [h1]
    have hae : a.isEmpty = false := by
      cases a with
      | nil => exact absurd rfl hane
      | cons _ _ => rfl
    rw [hae, if_neg (fun hq => Bool.noConfusion hq)]
    have hcd : c.all isDomainChar = true := by
      rw [List.all_eq_true]
      intro x hx
      exact isTldChar_isDomainChar x (List.all_eq_true.mp hcall x hx)
    have hr : ((b ++ '.' :: c) ++ rest).takeWhile isDomainChar =
        b ++ '.' :: (c ++ rest).takeWhile isDomainChar := by
      rw [List.append_assoc, List.cons_append]
      rw [takeWhile_append_all isDomainChar b _ hball]
      have : ('.' :: (c ++ rest)).takeWhile isDomainChar =
          '.' :: (c ++ rest).takeWhile isDomainChar := by
        rw [List.takeWhile]
        rfl
      rw [this]
    have hv2 : 2 ≤ (((c ++ rest).takeWhile isDomainChar).takeWhile isTldChar).length := by
      rw [takeWhile_append_all isDomainChar c rest hcd]
      rw [takeWhile_append_all isTldChar c _ hcall]
      rw [List.length_append]
      omega
    obtain ⟨b2, c2, hlg, hlen2⟩ := lastGoodDot_some_of _ b _ hr hv2
    rw [hlg]
    have hb2 : b2.isEmpty = false := by
      cases b2 with
      | nil =>
        cases b with
        | nil => exact absurd rfl hbne
        | cons _ _ => simp at hlen2
      | cons _ _ => rfl
    exact ⟨a ++ '@' :: (b2 ++ '.' :: c2), by simp [hb2]⟩
  next hne =>
    exact (hne _ h2).elim

theorem findFirstMatch_sound_min (l m : List Char) (h : findFirstMatch l = some m) :
    ∃ i, tryMatch (l.drop i) = some m ∧ ∀ j, j < i → tryMatch (l.drop j) = none := by
  induction l with
  | nil => exact absurd h (by simp [findFirstMatch])
  | cons x xs ih =>
    rw [findFirstMatch] at h
    cases ht : tryMatch (x :: xs) with
    | some m0 =>
      rw [ht] at h
      simp only [Option.some.injEq] at h
      subst h
      exact ⟨0, by rw [List.drop_zero]; exact ht, fun j hj => absurd hj (by omega)⟩
    | none =>
      rw [ht] at h
      obtain ⟨i, hi, hmin⟩ := ih h
      refine ⟨i + 1, by simpa using hi, ?_⟩
      intro j hj
      cases j with
      | zero => rw [List.drop_zero]; exact ht
      | succ j2 =>
        have := hmin j2 (by omega)
        simpa using this

theorem findFirstMatch_complete (l : List Char) (i : Nat) (m : List Char)
    (h : tryMatch (l.drop i) = some m) : ∃ m2, findFirstMatch l = some m2 := by
  induction l generalizing i with
  | nil =>
    rw [List.drop_nil] at h
    rw [show tryMatch ([] : List Char) = none from rfl] at h
    exact absurd h (by simp)
  | cons x xs ih =>
    rw [findFirstMatch]
    cases ht : tryMatch (x :: xs) with
    | some m0 => exact ⟨m0, rfl⟩
    | none =>
      cases i with
      | zero =>
        rw [List.drop_zero, ht] at h
        exact absurd h (by simp)
      | succ j => exact ih j (by simpa using h)

/-! ## Case folding preserves the email shape -/

theorem specEmailShape_map_lower (a b c : List Char) (h : SpecEmailShape a b c) :
    SpecEmailShape (a.map pyCharLower) (b.map pyCharLower) (c.map pyCharLower) := by
  obtain ⟨hane, haall, hbne, hball, hcall, hclen⟩ := h
  refine ⟨by simp [hane], ?_, by simp [hbne], ?_, ?_, by simpa using hclen⟩
  · rw [List.all_map, List.all_eq_true]
    intro x hx
    exact isLocalChar_pyCharLower x (List.all_eq_true.mp haall x hx)
  · rw [List.all_map, List.all_eq_true]
    intro x hx
    exact isDomainChar_pyCharLower x (List.all_eq_true.mp hball x hx)
  · rw [List.all_map, List.all_eq_true]
    intro x hx
    exact isTldChar_pyCharLower x (List.all_eq_true.mp hcall x hx)

theorem specEmailPattern_map_lower (m : List Char) (h : SpecEmailPattern m) :
    SpecEmailPattern (m.map pyCharLower) := by
  obtain ⟨a, b, c, heq, hshape⟩ := h
  refine ⟨a.map pyCharLower, b.map pyCharLower, c.map pyCharLower, ?_,
    specEmailShape_map_lower a b c hshape⟩
  rw [heq]
  have hat : pyCharLower '@' = '@' := by decide
  have hdot : pyCharLower '.' = '.' := by decide
  simp [hat, hdot]

theorem specEmailPattern_no_space (m : List Char) (h : SpecEmailPattern m) :
    ∀ x ∈ m, isSpaceB x = false := by
  obtain ⟨a, b, c, heq, hane, haall, hbne, hball, hcall, _⟩ := h
  subst heq
  intro x hx
  rcases List.mem_append.mp hx with hx | hx
  · exact isLocalChar_not_space x (List.all_eq_true.mp haall x hx)
  · rcases List.mem_cons.mp hx with rfl | hx
    · decide
    · rcases List.mem_append.mp hx with hx | hx
      · exact isDomainChar_not_space x (List.all_eq_true.mp hball x hx)
      · rcases List.mem_cons.mp hx with rfl | hx
        · decide
        · exact isTldChar_not_space x (List.all_eq_true.mp hcall x hx)

/-! ## Extraction: structure of a returned email, round trip, completeness -/

theorem extract_structure (t e : String) (h : extractEmailFromText t = some e) :
    ∃ m pre post, t.data = pre ++ m ++ post ∧ SpecEmailPattern m ∧
      e = String.mk (m.map pyCharLower) := by
  rw [extractEmailFromText, Option.map_eq_some'] at h
  obtain ⟨m, hm, he⟩ := h
  obtain ⟨i, hi, _⟩ := findFirstMatch_sound_min t.data m hm
  obtain ⟨a, b, c, rest, hmeq, hshape, hdrop⟩ := tryMatch_sound _ m hi
  refine ⟨m, t.data.take i, rest, ?_, ⟨a, b, c, hmeq, hshape⟩, he.symm⟩
  conv_lhs => rw [← List.take_append_drop i t.data]
  rw [hdrop]
  rw [List.append_assoc]

theorem extract_roundtrip (t e : String) (h : extractEmailFromText t = some e)
    (hlen : e.length ≤ 320) (db : UserDb) :
    (emailValidate db e none).success = true := by
  obtain ⟨m, pre, post, _, hpat, he⟩ := extract_structure t e h
  subst he
  rw [emailValidate_success_eq, isValidFormatList_iff]
  have hpat2 : SpecEmailPattern (m.map pyCharLower) := specEmailPattern_map_lower m hpat
  have hnos : ∀ x ∈ m.map pyCharLower, isSpaceB x = false := specEmailPattern_no_space _ hpat2
  have hstrip : pyStrip (String.mk (m.map pyCharLower)) = String.mk (m.map pyCharLower) := by
    rw [pyStrip]
    rw [show (String.mk (m.map pyCharLower)).data = m.map pyCharLower from rfl]
    rw [pyStripList_eq_self _ hnos]
  rw [hstrip]
  have hdl : (pyLower (String.mk (m.map pyCharLower))).data =
      (m.map pyCharLower).map pyCharLower := rfl
  rw [hdl]
  have hpat3 : SpecEmailPattern ((m.map pyCharLower).map pyCharLower) :=
    specEmailPattern_map_lower _ hpat2
  have hl2 : (m.map pyCharLower).length ≤ 320 := hlen
  refine ⟨specEmailPattern_count_at _ hpat3, ?_, hpat3⟩
  simpa using hl2

theorem extract_some_of_shaped (t : String) (h2 : HasEmailShapedSub t.data) :
    ∃ e, extractEmailFromText t = some e := by
  obtain ⟨pre, a, b, c, post, heq, hshape⟩ := h2
  have hdrop : t.data.drop pre.length = a ++ '@' :: ((b ++ '.' :: c) ++ post) := by
    rw [heq, List.append_assoc, List.drop_left]
    simp [List.append_assoc]
  obtain ⟨m, hm⟩ := tryMatch_complete a b c post hshape
  rw [← hdrop] at hm
  obtain ⟨m2, hm2⟩ := findFirstMatch_complete t.data pre.length m hm
  exact ⟨String.mk (m2.map pyCharLower), by rw [extractEmailFromText, hm2]; rfl⟩

theorem extract_shaped_of_some (t : String) (e : String)
    (h : extractEmailFromText t = some e) : HasEmailShapedSub t.data := by
  obtain ⟨m, pre, post, heq, hpat, _⟩ := extract_structure t e h
  obtain ⟨a, b, c, hmeq, hshape⟩ := hpat
  exact ⟨pre, a, b, c, post, by rw [heq, hmeq], hshape⟩

/-- The extracted email is the case-folded FIRST email-shaped substring:
it matches at some position `i`, and no email-shaped substring starts at
any earlier position (Python's `re.findall` scans left to right, so the
leftmost match wins). -/
theorem extract_first_structure (t e : String) (h : extractEmailFromText t = some e) :
    ∃ i m post, t.data = t.data.take i ++ m ++ post ∧ t.data.drop i = m ++ post ∧
      SpecEmailPattern m ∧ e = String.mk (m.map pyCharLower) ∧
      ∀ j, j < i → ∀ m2 post2, t.data.drop j = m2 ++ post2 → ¬ SpecEmailPattern m2 := by
  rw [extractEmailFromText, Option.map_eq_some'] at h
  obtain ⟨m, hm, he⟩ := h
  obtain ⟨i, hi, hmin⟩ := findFirstMatch_sound_min t.data m hm
  obtain ⟨a, b, c, rest, hmeq, hshape, hdrop⟩ := tryMatch_sound _ m hi
  refine ⟨i, m, rest, ?_, hdrop, ⟨a, b, c, hmeq, hshape⟩, he.symm, ?_⟩
  · conv_lhs => rw [← List.take_append_drop i t.data]
    rw [hdrop]
    simp [List.append_assoc]
  · intro j hj m2 post2 hdec hpat2
    obtain ⟨a2, b2, c2, hm2eq, hshape2⟩ := hpat2
    have hd2 : t.data.drop j = a2 ++ '@' :: ((b2 ++ '.' :: c2) ++ post2) := by
      rw [hdec, hm2eq]
      simp [List.append_assoc]
    obtain ⟨m3, hm3⟩ := tryMatch_complete a2 b2 c2 post2 hshape2
    rw [← hd2] at hm3
    rw [hmin j hj] at hm3
    exact Option.noConfusion hm3

/-! ## Per-handler transition lemmas -/

theorem handleTerms_step_eq (env : Env) (st : UserState) (msg : String) :
    (handleTerms env st msg).2.current_step =
      (if termsAccepted msg = true then WorkflowStep.AWAITING_NAME else st.current_step) := by
  by_cases h : termsAccepted msg = true
  · simp [handleTerms, h]
  · simp [handleTerms, h]

theorem handleName_step_eq (env : Env) (st : UserState) (msg : String) :
    (handleName env st msg).2.current_step =
      (if nameOkB env msg = true then WorkflowStep.AWAITING_EMAIL else st.current_step) := by
  cases h : env.nameResult msg <;> simp [handleName, nameOkB, h]

theorem handleEmail_step_eq (env : Env) (st : UserState) (msg : String) :
    (handleEmail env st msg).2.current_step =
      (if emailOkB env st msg = true then WorkflowStep.AWAITING_PHONE else st.current_step) := by
  by_cases h : emailOkB env st msg = true
  · rw [if_pos h]
    rw [emailOkB] at h
    cases hr : (emailValidate env.db
        (match extractEmailFromText msg with
         | some e => e
         | none => pyStrip msg)
        (dgetStr st.data "last_name")).is_returning_user <;>
      cases hu : (emailValidate env.db
        (match extractEmailFromText msg with
         | some e => e
         | none => pyStrip msg)
        (dgetStr st.data "last_name")).user_data <;>
      simp [handleEmail, h, hr, hu]
  · rw [if_neg h]
    rw [emailOkB] at h
    simp [handleEmail, h]

theorem handlePhone_ok_cases (env : Env) (st : UserState) (msg : String) (resp : String)
    (st2 : UserState) (h : handlePhone env st msg = .ok (resp, st2)) :
    (st2.current_step = st.current_step ∨
      (st2.current_step = WorkflowStep.AWAITING_OTP ∧ phoneOkB env msg = true)) ∧
    (phoneOkB env msg = false → st2.current_step = st.current_step) := by
  simp only [handlePhone] at h
  split at h
  next phone cc heq =>
    have hok : phoneOkB env msg = true := by simp [phoneOkB, heq]
    split at h
    next => exact absurd h (by simp)
    next em hem =>
      split at h
      · simp only [Except.ok.injEq, Prod.mk.injEq] at h
        refine ⟨Or.inr ⟨?_, hok⟩, fun hv => absurd hok (by rw [hv]; simp)⟩
        rw [← h.2]
      · simp only [Except.ok.injEq, Prod.mk.injEq] at h
        refine ⟨Or.inl ?_, fun _ => ?_⟩ <;> rw [← h.2]
  next m heq =>
    have hno : phoneOkB env msg = false := by simp [phoneOkB, heq]
    simp only [Except.ok.injEq, Prod.mk.injEq] at h
    exact ⟨Or.inl (by rw [← h.2]), fun _ => by rw [← h.2]⟩

theorem handleOtp_ok_cases (env : Env) (st : UserState) (msg : String) (resp : String)
    (st2 : UserState) (h : handleOtp env st msg = .ok (resp, st2)) :
    (st2.current_step = st.current_step ∨
      (st2.current_step = WorkflowStep.ACTIVE ∧ otpOkB env st msg = true)) ∧
    (otpOkB env st msg = false → st2.current_step = st.current_step) := by
  simp only [handleOtp] at h
  split at h
  next => exact absurd h (by simp)
  next em hem =>
    split at h
    next h0 exp hh hx =>
      have hsync : otpOkB env st msg =
          (otpValidate env.otpv env.now msg
            { user_id := st.user_id
              otp_hash := h0
              expires_at := exp
              attempts := st.failed_otp_attempts
              email_sent_to := em }).success := by
        simp [otpOkB, hem, hh, hx]
      split at h
      · -- validator success
        split at h
        next =>
          simp only [Except.ok.injEq, Prod.mk.injEq] at h
          refine ⟨Or.inr ⟨by rw [← h.2], ?_⟩, fun hv => ?_⟩
          · rw [hsync]
            assumption
          · rw [hsync] at hv
            simp_all
        next => exact absurd h (by simp)
      · -- validator failure
        simp only [Except.ok.injEq, Prod.mk.injEq] at h
        exact ⟨Or.inl (by rw [← h.2]), fun _ => by rw [← h.2]⟩
    next => exact absurd h (by simp)

/-! ## Claim theorems -/

/-- C1: for every user state in one of the six message-processing steps and
every inbound message, a successfully processed message leaves
`current_step` either unchanged or advanced to the single successor from
`TRANSITIONS`; the successor is reached only when the step's validator
reports success, and whenever the validator rejects the input the step is
unchanged (no backward or skip transition is reachable). -/
theorem C1_process_message_transitions (env : Env) (st : UserState) (msg resp : String)
    (st2 : UserState)
    (hstep : st.current_step = WorkflowStep.AWAITING_TERMS ∨
      st.current_step = WorkflowStep.AWAITING_NAME ∨
      st.current_step = WorkflowStep.AWAITING_EMAIL ∨
      st.current_step = WorkflowStep.AWAITING_PHONE ∨
      st.current_step = WorkflowStep.AWAITING_OTP ∨
      st.current_step = WorkflowStep.ACTIVE)
    (hok : processMessage env st msg = Except.ok (resp, st2)) :
    (st2.current_step = st.current_step ∨
      (st2.current_step = nextStep st.current_step ∧ stepValidatorOk env st msg = true)) ∧
    (stepValidatorOk env st msg = false → st2.current_step = st.current_step) := by
  rcases hstep with h0 | h0 | h0 | h0 | h0 | h0
  · -- AWAITING_TERMS
    simp only [processMessage, h0, Except.ok.injEq] at hok
    have h2 : (handleTerms env st msg).2 = st2 := by rw [hok]
    have hst : st2.current_step =
        if termsAccepted msg = true then WorkflowStep.AWAITING_NAME else st.current_step := by
      rw [← h2, handleTerms_step_eq]
    by_cases ht : termsAccepted msg = true
    · rw [if_pos ht] at hst
      refine ⟨Or.inr ⟨?_, ?_⟩, fun hv => ?_⟩
      · rw [hst, h0]
        rfl
      · simp [stepValidatorOk, h0, ht]
      · simp [stepValidatorOk, h0, ht] at hv
    · rw [if_neg ht] at hst
      exact ⟨Or.inl hst, fun _ => hst⟩
  · -- AWAITING_NAME
    simp only [processMessage, h0, Except.ok.injEq] at hok
    have h2 : (handleName env st msg).2 = st2 := by rw [hok]
    have hst : st2.current_step =
        if nameOkB env msg = true then WorkflowStep.AWAITING_EMAIL else st.current_step := by
      rw [← h2, handleName_step_eq]
    by_cases ht : nameOkB env msg = true
    · rw [if_pos ht] at hst
      refine ⟨Or.inr ⟨?_, ?_⟩, fun hv => ?_⟩
      · rw [hst, h0]
        rfl
      · simp [stepValidatorOk, h0, ht]
      · simp [stepValidatorOk, h0, ht] at hv
    · rw [if_neg ht] at hst
      exact ⟨Or.inl hst, fun _ => hst⟩
  · -- AWAITING_EMAIL
    simp only [processMessage, h0, Except.ok.injEq] at hok
    have h2 : (handleEmail env st msg).2 = st2 := by rw [hok]
    have hst : st2.current_step =
        if emailOkB env st msg = true then WorkflowStep.AWAITING_PHONE else st.current_step := by
      rw [← h2, handleEmail_step_eq]
    by_cases ht : emailOkB env st msg = true
    · rw [if_pos ht] at hst
      refine ⟨Or.inr ⟨?_, ?_⟩, fun hv => ?_⟩
      · rw [hst, h0]
        rfl
      · simp [stepValidatorOk, h0, ht]
      · simp [stepValidatorOk, h0, ht] at hv
    · rw [if_neg ht] at hst
      exact ⟨Or.inl hst, fun _ => hst⟩
  · -- AWAITING_PHONE
    simp only [processMessage, h0] at hok
    have hc := handlePhone_ok_cases env st msg resp st2 hok
    refine ⟨?_, fun hv => ?_⟩
    · rcases hc.1 with hl | ⟨hr, hv2⟩
      · exact Or.inl hl
      · exact Or.inr ⟨by rw [hr, h0]; rfl, by simp [stepValidatorOk, h0, hv2]⟩
    · simp only [stepValidatorOk, h0] at hv
      exact hc.2 hv
  · -- AWAITING_OTP
    simp only [processMessage, h0] at hok
    have hc := handleOtp_ok_cases env st msg resp st2 hok
    refine ⟨?_, fun hv => ?_⟩
    · rcases hc.1 with hl | ⟨hr, hv2⟩
      · exact Or.inl hl
      · exact Or.inr ⟨by rw [hr, h0]; rfl, by simp [stepValidatorOk, h0, hv2]⟩
    · simp only [stepValidatorOk, h0] at hv
      exact hc.2 hv
  · -- ACTIVE
    simp only [processMessage, h0, Except.ok.injEq] at hok
    have h2 : (handleActive env st msg).2 = st2 := by rw [hok]
    have hst : st2.current_step = st.current_step := by
      rw [← h2]
      rfl
    exact ⟨Or.inl hst, fun _ => hst⟩

/-- C1 witness: a concrete terms-step state and message, with the
hypotheses discharged. -/
theorem C1_witness :
    processMessage envW stTermsW "I accept" = Except.ok pTermsAccept ∧
    ((pTermsAccept.2.current_step = stTermsW.current_step ∨
      (pTermsAccept.2.current_step = nextStep stTermsW.current_step ∧
        stepValidatorOk envW stTermsW "I accept" = true)) ∧
    (stepValidatorOk envW stTermsW "I accept" = false →
      pTermsAccept.2.current_step = stTermsW.current_step)) :=
  ⟨rfl, C1_process_message_transitions envW stTermsW "I accept" pTermsAccept.1 pTermsAccept.2
    (Or.inl rfl) rfl⟩

/-- C2 (code bug): each failure path of `execute_tool` is supposed to return
a `ToolResult` with `success=false`, but every `ToolResult(...)` call in
`registry.py` omits the required `tool_name` field (and the success path
passes a nonexistent `data=` keyword), so pydantic raises a
`ValidationError` out of `execute_tool` instead — on an unregistered name,
on a missing required parameter (in both cases no handler runs, hence the
quantification over arbitrary handlers), and even while converting a
handler's exception. -/
theorem C2_execute_tool_raises_validation_error (h1 h2 h3 : ToolHandler) (uid : String)
    (ctx : List (String × String)) :
    executeTool (builtinRegistry h1 h2 h3)
        { name := "nonexistent_tool", parameters := [] } uid ctx =
      Except.error "ValidationError: 1 validation error for ToolResult tool_name Field required" ∧
    executeTool (builtinRegistry h1 h2 h3)
        { name := "schedule_appointment", parameters := [("date", "2025-01-01")] } uid ctx =
      Except.error "ValidationError: 1 validation error for ToolResult tool_name Field required" ∧
    executeTool (builtinRegistry h1 (fun _ _ _ => Except.error "boom") h3)
        { name := "get_available_slots", parameters := [("date", "2025-01-01")] } uid ctx =
      Except.error "ValidationError: 1 validation error for ToolResult tool_name Field required" :=
  ⟨rfl, rfl, rfl⟩

/-- C3 (code bug): a wrong-length OTP submission is rejected by
`OTPValidator.validate` without looking at attempts (`invalid_length`), but
`_handle_otp` still increments `failed_otp_attempts` from 0 to 1, so the
wrong-length submission does consume an attempt, contradicting the claim. -/
theorem C3_wrong_length_consumes_attempt :
    (otpValidate otpvW envW.now "12345" otpdW).success = false ∧
    (otpValidate otpvW envW.now "12345" otpdW).error_type = some "invalid_length" ∧
    stOtpW.failed_otp_attempts = 0 ∧
    processMessage envW stOtpW "12345" =
      Except.ok ("otp_invalid", { stOtpW with failed_otp_attempts := 1 }) :=
  ⟨rfl, rfl, rfl, rfl⟩

/-- C4 (code bug): when the phone is valid but the OTP email dispatch
fails, processing stays at AWAITING_PHONE but has already written the
phone, the country code, the `phone_collected` marker and the OTP fields
into the state — the write is not all-or-nothing. -/
theorem C4_phone_dispatch_failure_partial_write :
    processMessage envNoEmail stPhoneW "+15551234567" = Except.ok pPhoneFail ∧
    pPhoneFail.2.current_step = WorkflowStep.AWAITING_PHONE ∧
    dget pPhoneFail.2.data "phone" = some (.vstr "+15551234567") ∧
    dget pPhoneFail.2.data "country_code" = some (.vstr "+1") ∧
    pPhoneFail.2.completed_steps = stPhoneW.completed_steps ++ ["phone_collected"] ∧
    pPhoneFail.2.otp_hash = some "h:123456salt" ∧
    stPhoneW.otp_hash = none :=
  ⟨rfl, rfl, rfl, rfl, rfl, rfl, rfl⟩

/-- C5 (code bug in its attempt-counter part): a submission after
`expires_at` is rejected even when its stripped digits hash to the stored
hash — but `_handle_otp` still increments `failed_otp_attempts`, so the
expired submission does consume an attempt slot, contradicting the claim. -/
theorem C5_expired_rejection_increments_attempts (env : Env) (st : UserState)
    (msg em h0 : String) (exp : Int)
    (hstep : st.current_step = WorkflowStep.AWAITING_OTP)
    (hem : dgetStr st.data "email" = some em)
    (hh : st.otp_hash = some h0)
    (hx : st.otp_expires_at = some exp)
    (hlate : env.now > exp)
    (hdig : (pyDigits msg).length = 6)
    (hmatch : hashOtp env.otpv (String.mk (pyDigits msg)) = h0) :
    (otpValidate env.otpv env.now msg
      { user_id := st.user_id
        otp_hash := h0
        expires_at := exp
        attempts := st.failed_otp_attempts
        email_sent_to := em }).success = false ∧
    processMessage env st msg =
      Except.ok (env.respond "otp_invalid",
        { st with failed_otp_attempts := st.failed_otp_attempts + 1 }) := by
  have hval : ∀ d : OTPDataM, d.expires_at = exp →
      otpValidate env.otpv env.now msg d =
        { success := false
          error_message := some "This code has expired. Please request a new one."
          error_type := some "expired"
          attempts_remaining := none } := by
    intro d hd
    rw [otpValidate]
    rw [if_neg (by rw [hdig]; simp [OTP_LENGTH])]
    rw [if_pos (by rw [hd]; exact hlate)]
  constructor
  · rw [hval _ rfl]
  · simp only [processMessage, hstep, handleOtp, hem, hh, hx]
    rw [hval _ rfl]
    simp

/-- C5 witness: a concrete expired-but-correct submission. -/
theorem C5_witness :
    (otpValidate envLate.otpv envLate.now "123456"
      { user_id := stOtpW.user_id
        otp_hash := "h:123456salt"
        expires_at := 1300
        attempts := stOtpW.failed_otp_attempts
        email_sent_to := "john@x.com" }).success = false ∧
    processMessage envLate stOtpW "123456" =
      Except.ok (envLate.respond "otp_invalid",
        { stOtpW with failed_otp_attempts := stOtpW.failed_otp_attempts + 1 }) :=
  C5_expired_rejection_increments_attempts envLate stOtpW "123456" "john@x.com"
    "h:123456salt" 1300 rfl rfl rfl rfl (by decide) (by decide) rfl

/-- C6: once `attempts >= max_attempts`, `OTPValidator.validate` rejects
every submission — including one whose digits hash to the stored hash —
because the attempts check precedes the hash comparison. -/
theorem C6_exhausted_attempts_reject (v : OTPValidatorS) (now : Int) (input : String)
    (d : OTPDataM) (h : d.attempts ≥ d.max_attempts) :
    (otpValidate v now input d).success = false := by
  rw [otpValidate]
  by_cases h1 : (pyDigits input).length ≠ OTP_LENGTH
  · rw [if_pos h1]
  · rw [if_neg h1]
    by_cases h2 : now > d.expires_at
    · rw [if_pos h2]
    · rw [if_neg h2]
      rw [if_pos h]

/-- C6 witness: exhausted attempts with the otherwise-correct code. -/
theorem C6_witness :
    otpdExhausted.attempts ≥ otpdExhausted.max_attempts ∧
    hashOtp otpvW "123456" = otpdExhausted.otp_hash ∧
    (otpValidate otpvW 1000 "123456" otpdExhausted).success = false :=
  ⟨by decide, rfl, C6_exhausted_attempts_reject otpvW 1000 "123456" otpdExhausted (by decide)⟩

/-- C7: after trimming and lowercasing, `EmailValidator.validate` succeeds
exactly when the cleaned string has exactly one `'@'`, length at most 320,
and the `local@domain.tld` shape with a tld of at least two letters; in
particular `"a@b"` fails and `"a@b.com"` with no last name succeeds with
`is_returning_user=false`. -/
theorem C7_email_validate_characterization :
    (∀ (db : UserDb) (s : String) (ln : Option String),
      ((emailValidate db s ln).success = true ↔
        ((pyLower (pyStrip s)).data.count '@' = 1 ∧
          (pyLower (pyStrip s)).data.length ≤ 320 ∧
          SpecEmailPattern (pyLower (pyStrip s)).data))) ∧
    (∀ db : UserDb, (emailValidate db "a@b" none).success = false) ∧
    (∀ db : UserDb, (emailValidate db "a@b.com" none).success = true ∧
      (emailValidate db "a@b.com" none).is_returning_user = false) := by
  refine ⟨?_, ?_, ?_⟩
  · intro db s ln
    rw [emailValidate_success_eq, isValidFormatList_iff]
  · intro db
    rw [emailValidate_success_eq]
    decide
  · intro db
    refine ⟨?_, rfl⟩
    rw [emailValidate_success_eq]
    decide

/-- C8 (corrected): an email extracted from freeform text is the FIRST
email-shaped substring of the text, case-folded — it occurs at a position
before which no email-shaped substring starts — and extraction succeeds
exactly when such a substring is present; the round trip through the strict
validator holds for extracted emails of length at most 320 (the original
claim, with no length bound, is refuted by `C8_counterexample`). -/
theorem C8_extract_email_amended :
    (∀ t e, extractEmailFromText t = some e →
      (∃ i m post, t.data = t.data.take i ++ m ++ post ∧ t.data.drop i = m ++ post ∧
        SpecEmailPattern m ∧ e = String.mk (m.map pyCharLower) ∧
        ∀ j, j < i → ∀ m2 post2, t.data.drop j = m2 ++ post2 → ¬ SpecEmailPattern m2) ∧
      (∀ db : UserDb, e.length ≤ 320 → (emailValidate db e none).success = true)) ∧
    (∀ t : String, HasEmailShapedSub t.data → ∃ e, extractEmailFromText t = some e) ∧
    (∀ t e, extractEmailFromText t = some e → HasEmailShapedSub t.data) ∧
    extractEmailFromText "contact me at a@b.com" = some "a@b.com" := by
  refine ⟨?_, extract_some_of_shaped, extract_shaped_of_some, by decide⟩
  intro t e h
  exact ⟨extract_first_structure t e h, fun db hlen => extract_roundtrip t e h hlen db⟩

/-- C8 witness: the claim's own concrete example, with the round trip
discharged at it. -/
theorem C8_witness :
    extractEmailFromText "contact me at a@b.com" = some "a@b.com" ∧
    (emailValidate dbNone "a@b.com" none).success = true := by
  refine ⟨C8_extract_email_amended.2.2.2, ?_⟩
  exact (C8_extract_email_amended.1 "contact me at a@b.com" "a@b.com"
    C8_extract_email_amended.2.2.2).2 dbNone (by decide)

set_option maxRecDepth 10000 in
/-- C8 counterexample: on a text whose only email-shaped substring is 326
characters long, `extract_email_from_text` returns that substring but
`EmailValidator.validate` rejects it (length > 320), so the round-trip
claim as stated is false. -/
theorem C8_counterexample :
    extractEmailFromText bigT = some bigT ∧
    320 < bigT.length ∧
    (emailValidate dbNone bigT none).success = false := by
  refine ⟨by decide, by decide, ?_⟩
  rw [emailValidate_success_eq]
  decide

/-- C9: in AWAITING_TERMS the transition is decided by a substring check —
the state advances exactly when the message is `"TERMS_ACCEPTED"` or its
lowercase form contains `"accept"` or `"agree"` anywhere — so negations
such as "I do not accept" or "I never agree" also advance; every other
message leaves the state at AWAITING_TERMS; acceptance is not an
affirmative-intent check. -/
theorem C9_terms_substring_acceptance :
    (∀ env st msg resp st2, st.current_step = WorkflowStep.AWAITING_TERMS →
      processMessage env st msg = Except.ok (resp, st2) →
      ((st2.current_step = WorkflowStep.AWAITING_NAME ↔
        (msg = "TERMS_ACCEPTED" ∨ containsSub "accept" (pyLower msg) = true ∨
          containsSub "agree" (pyLower msg) = true)) ∧
       (¬ (msg = "TERMS_ACCEPTED" ∨ containsSub "accept" (pyLower msg) = true ∨
          containsSub "agree" (pyLower msg) = true) →
        st2.current_step = WorkflowStep.AWAITING_TERMS))) ∧
    termsAccepted "I do not accept" = true ∧
    termsAccepted "I never agree" = true ∧
    termsAccepted "ok sounds good" = false := by
  refine ⟨?_, by decide, by decide, by decide⟩
  intro env st msg resp st2 h0 hok
  simp only [processMessage, h0, Except.ok.injEq] at hok
  have h2 : (handleTerms env st msg).2 = st2 := by rw [hok]
  have hst := handleTerms_step_eq env st msg
  rw [h2] at hst
  have hterm : termsAccepted msg = true ↔
      (msg = "TERMS_ACCEPTED" ∨ containsSub "accept" (pyLower msg) = true ∨
        containsSub "agree" (pyLower msg) = true) := by
    simp [termsAccepted, Bool.or_eq_true, or_assoc]
  by_cases ht : termsAccepted msg = true
  · rw [if_pos ht] at hst
    rw [hst]
    exact ⟨⟨fun _ => hterm.mp ht, fun _ => rfl⟩, fun hq => absurd (hterm.mp ht) hq⟩
  · rw [if_neg ht] at hst
    rw [hst, h0]
    refine ⟨⟨fun hq => absurd hq (by decide), fun hq => absurd (hterm.mpr hq) ht⟩, fun _ => rfl⟩

/-- C9 witness: the negated acceptance "I do not accept" advances the
state, and the non-accepting "hello there" stays at AWAITING_TERMS. -/
theorem C9_witness :
    processMessage envW stTermsW "I do not accept" = Except.ok pTermsNeg ∧
    (pTermsNeg.2.current_step = WorkflowStep.AWAITING_NAME ↔
      ("I do not accept" = "TERMS_ACCEPTED" ∨
        containsSub "accept" (pyLower "I do not accept") = true ∨
        containsSub "agree" (pyLower "I do not accept") = true)) ∧
    processMessage envW stTermsW "hello there" = Except.ok pTermsNo ∧
    pTermsNo.2.current_step = WorkflowStep.AWAITING_TERMS :=
  ⟨rfl,
    (C9_terms_substring_acceptance.1 envW stTermsW "I do not accept"
      pTermsNeg.1 pTermsNeg.2 rfl rfl).1,
    rfl,
    (C9_terms_substring_acceptance.1 envW stTermsW "hello there"
      pTermsNo.1 pTermsNo.2 rfl rfl).2 (by decide)⟩

/-- C10: if the returning-user lookup raises, `EmailValidator.validate`
neither fails nor propagates: a syntactically valid email still validates
with `success=true` and `is_returning_user=false` (the storage failure
silently treats a returning user as new). -/
theorem C10_returning_user_check_failure_open (db : UserDb)
    (email lastName err : String)
    (hformat : isValidFormatList (pyLower (pyStrip email)).data = true)
    (hln : ¬ lastName = "")
    (hdb : db (pyLower (pyStrip email)) lastName = Except.error err) :
    (emailValidate db email (some lastName)).success = true ∧
    (emailValidate db email (some lastName)).is_returning_user = false ∧
    (emailValidate db email (some lastName)).user_data = none := by
  simp only [emailValidate]
  rw [if_pos hformat, if_neg hln, checkReturningUser, hdb]
  exact ⟨rfl, rfl, rfl⟩

/-- C10 witness: a concrete valid email and last name with a raising
store. -/
theorem C10_witness :
    isValidFormatList (pyLower (pyStrip "a@b.com")).data = true ∧
    (emailValidate dbBoom "a@b.com" (some "Smith")).success = true ∧
    (emailValidate dbBoom "a@b.com" (some "Smith")).is_returning_user = false :=
  ⟨by decide,
    (C10_returning_user_check_failure_open dbBoom "a@b.com" "Smith" "firestore unavailable"
      (by decide) (by decide) rfl).1,
    (C10_returning_user_check_failure_open dbBoom "a@b.com" "Smith" "firestore unavailable"
      (by decide) (by decide) rfl).2.1⟩

end MLG
